import Mathlib

/-!
Verification of the stateful sliding-window feature engine of the
electricity-demand pipeline (services `demand_features` and `feature_demand`).

The embedding models, from the source:
- `Reading` : one deserialized input record `{timestamp_ms, region, demand}`
  (demand optional); demand values are idealized as rationals.
- `update_window` / `same_window` : the per-key window store
  (`src/services/demand_features/src/main.py` and the character-identical
  copy in `src/services/feature_demand/src/main.py`), acting on an explicit
  state list instead of the streaming framework's `State` object.
- `compute_rolling_values` : the demand_features variant; fallible list
  indexing is modelled with `Except` so that "never raises" is a theorem.
- `FeatureDemand.compute_rolling_values` : the feature_demand variant with
  its separate `demand_history` state and its `None` fallbacks; the path
  where the Python code would raise `UnboundLocalError` (current demand is
  null, so the local `values` is never assigned) is an `Except.error`.
- `hour_category` and friends : the hour categorization of `add_time_data`.
- `check_inactivity` : the liveness monitor's polling loop, as a function of
  the sequence of (last_message_time, now) values it observes.
-/

set_option maxRecDepth 8000

/-- One input record: `{timestamp_ms, region, demand}` with an optional
demand value (Python `None` becomes `Option.none`). -/
structure Reading where
  timestamp_ms : Nat
  region : String
  demand : Option ℚ
deriving DecidableEq

/-- `MAX_WINDOW_IN_STATE = 168` from both service variants. -/
def MAX_WINDOW_IN_STATE : Nat := 168

/-- `same_window` from the source: two data points are in the same window iff
their `timestamp_ms` and `region` fields are both equal. -/
def same_window (data_1 data_2 : Reading) : Bool :=
  data_1.timestamp_ms == data_2.timestamp_ms && data_1.region == data_2.region

/-- `update_window` from the source: on an empty state store the single
reading; if the new reading is in the same window as the last stored one,
replace the last element in place; otherwise append.  Afterwards, if the
length exceeds `MAX_WINDOW_IN_STATE`, pop the element at index 0.  The
function returns the current data point together with the updated state. -/
def update_window (data : Reading) (all_data : List Reading) : Reading × List Reading :=
  let grown :=
    match all_data.getLast? with
    | none => [data]
    | some last =>
      if same_window data last then all_data.dropLast ++ [data]
      else all_data ++ [data]
  (data, if MAX_WINDOW_IN_STATE < grown.length then grown.tail else grown)

/-- Processing a whole input sequence through `update_window`, carrying the
per-key state (the spec's `History`). -/
def processWindow (rs : List Reading) (st : List Reading) : List Reading :=
  rs.foldl (fun s d => (update_window d s).2) st

/-- Example readings used by the concrete witnesses below. -/
def r100 : Reading := { timestamp_ms := 3600000, region := "CAL", demand := some 100 }

def r150 : Reading := { timestamp_ms := 3600000, region := "CAL", demand := some 150 }

def r200 : Reading := { timestamp_ms := 7200000, region := "CAL", demand := some 200 }

/-- The 169 sequential hourly readings with demands 1..169 of the spec's
end-to-end scenario 4. -/
def scenarioReadings : List Reading :=
  (List.range 169).map
    (fun i => { timestamp_ms := (i + 1) * 3600000, region := "CAL", demand := some (mkRat (i + 1) 1) })

/-- A full window of 168 distinct hourly readings (demands 1..168). -/
def window168 : List Reading :=
  (List.range 168).map
    (fun i => { timestamp_ms := (i + 1) * 3600000, region := "CAL", demand := some (mkRat (i + 1) 1) })

/-- The 169th hourly reading, demand 169. -/
def r169 : Reading := { timestamp_ms := 169 * 3600000, region := "CAL", demand := some 169 }

/-- The inductive invariant maintained by the window store for one key:
strictly increasing timestamps, a single region, bounded length. -/
structure WindowInv (k : String) (st : List Reading) : Prop where
  chain : st.Chain' (fun a b => a.timestamp_ms < b.timestamp_ms)
  regions : ∀ r ∈ st, r.region = k
  len_le : st.length ≤ MAX_WINDOW_IN_STATE

/-- Arithmetic mean (the idealization of `np.mean` over exact rationals). -/
def mean (l : List ℚ) : ℚ := l.sum / l.length

/-- Insertion of one element into a sorted list (ascending). -/
def insortRat (x : ℚ) : List ℚ → List ℚ
  | [] => [x]
  | y :: ys => if x ≤ y then x :: y :: ys else y :: insortRat x ys

/-- Ascending sort, as used by `np.median`. -/
def sortRat (l : List ℚ) : List ℚ := l.foldr insortRat []

/-- `np.median`: sort ascending; middle element for odd length, average of the
two middle elements for even length. -/
def median (l : List ℚ) : ℚ :=
  let s := sortRat l
  let n := s.length
  if n % 2 = 1 then s.getD (n / 2) 0
  else (s.getD (n / 2 - 1) 0 + s.getD (n / 2) 0) / 2

/-- Python's trailing slice `l[-n:]` for `n ≤ len(l)`. -/
def takeLast (n : Nat) (l : List ℚ) : List ℚ := l.drop (l.length - n)

/-- Spec-side definition: the last `min(n, span)` elements of `D`. -/
def trailing (span : Nat) (D : List ℚ) : List ℚ :=
  D.drop (D.length - min D.length span)

/-- The ordered sequence of non-null demand values of a history
(`[d['demand'] for d in all_data if d['demand'] is not None]`). -/
def demands (all_data : List Reading) : List ℚ :=
  all_data.filterMap (fun d => d.demand)

/-- Python list indexing `l[i]` for a non-negative index: raises `IndexError`
when out of range. -/
def pyGet (l : List ℚ) (i : Nat) : Except String ℚ :=
  match l[i]? with
  | some x => Except.ok x
  | none => Except.error "IndexError"

/-- `float(demand[-k]) if len(demand) >= k else fallback`: the lag-feature
pattern of the demand_features variant (`k` is 2, 25 or 169). -/
def lagOr (D : List ℚ) (k : Nat) (fallback : Option ℚ) : Except String (Option ℚ) :=
  if k ≤ D.length then Except.map some (pyGet D (D.length - k)) else Except.ok fallback

/-- The pure value produced by `lagOr` when it does not raise. -/
def lagVal (D : List ℚ) (k : Nat) (fallback : Option ℚ) : Option ℚ :=
  if k ≤ D.length then D[D.length - k]? else fallback

/-- The statistical fields added by the demand_features variant of
`compute_rolling_values` (`None` is a possible value for each field). -/
structure StatValues where
  full_mean : Option ℚ
  full_median : Option ℚ
  mean_3 : Option ℚ
  median_3 : Option ℚ
  mean_24 : Option ℚ
  median_24 : Option ℚ
  lag_1h : Option ℚ
  lag_24h : Option ℚ
  lag_168h : Option ℚ
deriving DecidableEq

/-- The output record `{**data, **values}` of the demand_features variant. -/
structure EnrichedReading where
  reading : Reading
  stats : StatValues
deriving DecidableEq

/-- `compute_rolling_values` of `src/services/demand_features/src/main.py`:
non-null demand values are extracted from the stored history; when at least
one exists, full/3-hour/24-hour means and medians are computed over the
corresponding trailing slices, and the lag features use `demand[-2]`,
`demand[-25]`, `demand[-169]` with the current demand as fallback; with no
historical demand values, every field falls back to the current demand. -/
def compute_rolling_values (data : Reading) (all_data : List Reading) :
    Except String EnrichedReading :=
  let D := demands all_data
  let current_demand := data.demand
  if 0 < D.length then
    (lagOr D 2 current_demand).bind (fun lag1 =>
    (lagOr D 25 current_demand).bind (fun lag24 =>
    (lagOr D 169 current_demand).bind (fun lag168 =>
      Except.ok
        { reading := data
          stats :=
            { full_mean := some (mean D)
              full_median := some (median D)
              mean_3 := some (mean (if 3 ≤ D.length then takeLast 3 D else D))
              median_3 := some (median (if 3 ≤ D.length then takeLast 3 D else D))
              mean_24 := some (mean (if 24 ≤ D.length then takeLast 24 D else D))
              median_24 := some (median (if 24 ≤ D.length then takeLast 24 D else D))
              lag_1h := lag1
              lag_24h := lag24
              lag_168h := lag168 } })))
  else
    Except.ok
      { reading := data
        stats :=
          { full_mean := current_demand
            full_median := current_demand
            mean_3 := current_demand
            median_3 := current_demand
            mean_24 := current_demand
            median_24 := current_demand
            lag_1h := current_demand
            lag_24h := current_demand
            lag_168h := current_demand } }

/-- One record through the demand_features pipeline: upsert into the window,
then compute rolling features from the updated window. -/
def pipeline_step (data : Reading) (st : List Reading) :
    List Reading × Except String EnrichedReading :=
  let p := update_window data st
  (p.2, compute_rolling_values p.1 p.2)

/-- The demand_features pipeline over a whole input sequence, keeping the
final state and the output of the last processed record. -/
def run_pipeline (rs : List Reading) : List Reading × Except String EnrichedReading :=
  rs.foldl (fun acc d => pipeline_step d acc.1) ([], Except.error "no input")

/-- Observation helper: the statistical fields of a successful output. -/
def statsOf (e : Except String EnrichedReading) : Option StatValues :=
  match e with
  | Except.ok v => some v.stats
  | Except.error _ => none

/-- `IDLE_TIMEOUT = 10` seconds (demand_features variant). -/
def IDLE_TIMEOUT : ℚ := 10

/-- One observation made by the liveness monitor's polling loop: the value of
the global `last_message_time` (0 until the first message) and the value of
`time.time()` at the check. -/
structure MonitorObs where
  last_message_time : ℚ
  now : ℚ
deriving DecidableEq

/-- The firing condition of the monitor's periodic check:
`last_message_time > 0 and time.time() - last_message_time > IDLE_TIMEOUT`. -/
def inactivity_fires (o : MonitorObs) : Bool :=
  decide (0 < o.last_message_time) &&
  decide (IDLE_TIMEOUT < o.now - o.last_message_time)

/-- `check_inactivity` as a function of the successive observations its
polling loop makes: it returns the checks actually performed and the number
of `app.stop()` signals issued; the loop breaks immediately after the first
firing check, so no further checks happen. -/
def check_inactivity : List MonitorObs → List MonitorObs × Nat
  | [] => ([], 0)
  | o :: rest =>
    if inactivity_fires o then ([o], 1)
    else
      let r := check_inactivity rest
      (o :: r.1, r.2)

/-- A check observing the initial `last_message_time = 0`. -/
def obsIdle : MonitorObs := { last_message_time := 0, now := 3 }

/-- A check observing a message processed at time 1, 19 seconds ago. -/
def obsExpired : MonitorObs := { last_message_time := 1, now := 20 }

/-- UTC hour of day of an epoch-milliseconds timestamp
(`datetime.fromtimestamp(ts/1000, tz=utc).hour`). -/
def hourOfTs (ts_ms : Nat) : Nat := ts_ms / 1000 % 86400 / 3600

/-- Python `datetime.weekday()` (0=Monday .. 6=Sunday) of an
epoch-milliseconds timestamp; epoch day 0 (1970-01-01) was a Thursday (3). -/
def dayOfWeekOfTs (ts_ms : Nat) : Nat := (ts_ms / 1000 / 86400 + 3) % 7

/-- The three hour categories of `add_time_data`. -/
inductive HourCategory where
  | off_peak
  | office_hours
  | evening_peak
deriving DecidableEq

/-- `category_mapping = {'off_peak': 0, 'office_hours': 1, 'evening_peak': 2}`. -/
def category_mapping : HourCategory → Nat
  | HourCategory.off_peak => 0
  | HourCategory.office_hours => 1
  | HourCategory.evening_peak => 2

/-- The hour categorization of `add_time_data`: weekends
(`day_of_week >= 5`) know only evening peak and off peak; weekdays get
office hours 9-17, evening peak 18-22, off peak otherwise. -/
def hour_category (ts_ms : Nat) : HourCategory :=
  let hour := hourOfTs ts_ms
  let day_of_week := dayOfWeekOfTs ts_ms
  let is_weekend := 5 ≤ day_of_week
  if is_weekend then
    if 18 ≤ hour ∧ hour ≤ 22 then HourCategory.evening_peak
    else HourCategory.off_peak
  else
    if 9 ≤ hour ∧ hour ≤ 17 then HourCategory.office_hours
    else if 18 ≤ hour ∧ hour ≤ 22 then HourCategory.evening_peak
    else HourCategory.off_peak

/-- The categorization as the spec words it: on Saturday or Sunday
(weekday codes 5 and 6), evening peak iff hour in [18,22], otherwise off
peak; on weekdays office hours for [9,17], evening peak for [18,22],
otherwise off peak. -/
def specHourCategory (day_of_week hour : Nat) : HourCategory :=
  if day_of_week = 5 ∨ day_of_week = 6 then
    if 18 ≤ hour ∧ hour ≤ 22 then HourCategory.evening_peak
    else HourCategory.off_peak
  else
    if 9 ≤ hour ∧ hour ≤ 17 then HourCategory.office_hours
    else if 18 ≤ hour ∧ hour ≤ 22 then HourCategory.evening_peak
    else HourCategory.off_peak

/-- The spec's numeric code: off_peak=0, office_hours=1, evening_peak=2. -/
def specCategoryCode : HourCategory → Nat
  | HourCategory.off_peak => 0
  | HourCategory.office_hours => 1
  | HourCategory.evening_peak => 2

/-- The statistical fields of the feature_demand variant (which has
`mean_168`/`median_168` instead of full-window statistics, and `None`
fallbacks throughout). -/
structure FDStatValues where
  mean_3 : Option ℚ
  median_3 : Option ℚ
  mean_24 : Option ℚ
  median_24 : Option ℚ
  mean_168 : Option ℚ
  median_168 : Option ℚ
  lag_1h : Option ℚ
  lag_24h : Option ℚ
  lag_168h : Option ℚ
deriving DecidableEq

/-- The output record of the feature_demand variant. -/
structure FDEnrichedReading where
  reading : Reading
  stats : FDStatValues
deriving DecidableEq

namespace FeatureDemand

/-- `compute_rolling_values` of `src/services/feature_demand/src/main.py`:
it keeps its own `demand_history` list in state, appends the current demand
whenever it is non-null, and computes every statistic over that list with
`None` when the history is shorter than the span; when the current demand is
null it only logs, so the trailing `return {**data, **values}` hits the
unassigned local `values` and raises `UnboundLocalError` (modelled as
`Except.error`). -/
def compute_rolling_values (data : Reading) (demand_history : List ℚ) :
    List ℚ × Except String FDEnrichedReading :=
  match data.demand with
  | some d =>
    let dh := demand_history ++ [d]
    let n := dh.length
    (dh, Except.ok
      { reading := data
        stats :=
          { mean_3 := if 3 ≤ n then some (mean (takeLast 3 dh)) else none
            median_3 := if 3 ≤ n then some (median (takeLast 3 dh)) else none
            mean_24 := if 24 ≤ n then some (mean (takeLast 24 dh)) else none
            median_24 := if 24 ≤ n then some (median (takeLast 24 dh)) else none
            mean_168 := if 168 ≤ n then some (mean (takeLast 168 dh)) else none
            median_168 := if 168 ≤ n then some (median (takeLast 168 dh)) else none
            lag_1h := if 2 ≤ n then dh[n - 2]? else none
            lag_24h := if 25 ≤ n then dh[n - 25]? else none
            lag_168h := if 169 ≤ n then dh[n - 169]? else none } })
  | none =>
    (demand_history, Except.error "UnboundLocalError: values")

/-- One record through the feature_demand pipeline: upsert into the window
(state `all_data`), then run the variant's rolling computation against its
separate `demand_history` state. -/
def pipelineStep (data : Reading) (st : List Reading × List ℚ) :
    (List Reading × List ℚ) × Except String FDEnrichedReading :=
  let w := update_window data st.1
  let c := compute_rolling_values w.1 st.2
  ((w.2, c.1), c.2)

/-- The feature_demand pipeline over a whole input sequence, keeping the
final state and the last record's output. -/
def runAll (rs : List Reading) :
    (List Reading × List ℚ) × Except String FDEnrichedReading :=
  rs.foldl (fun acc d => pipelineStep d acc.1)
    ((([], []) : List Reading × List ℚ), Except.error "no input")

end FeatureDemand

lemma update_window_fst (data : Reading) (st : List Reading) :
    (update_window data st).1 = data := rfl

lemma update_window_nil (data : Reading) : update_window data [] = (data, [data]) := rfl

lemma same_window_self (d : Reading) : same_window d d = true := by
  simp [same_window]

lemma same_window_ts_region {a b : Reading} (h : same_window a b = true) :
    a.timestamp_ms = b.timestamp_ms ∧ a.region = b.region := by
  simpa [same_window] using h

lemma ne_nil_of_getLast? {st : List Reading} {last : Reading}
    (h : st.getLast? = some last) : st ≠ [] := by
  intro e; subst e; simp at h

lemma update_window_replace (data : Reading) (st : List Reading) (last : Reading)
    (h : st.getLast? = some last) (hsw : same_window data last = true)
    (hlen : st.length ≤ MAX_WINDOW_IN_STATE) :
    update_window data st = (data, st.dropLast ++ [data]) := by
  have hne : st ≠ [] := ne_nil_of_getLast? h
  have hpos : 0 < st.length := List.length_pos.mpr hne
  simp only [update_window, h, hsw, if_true]
  have hLen : (st.dropLast ++ [data]).length = st.length := by
    simp [List.length_dropLast]; omega
  rw [if_neg]
  rw [hLen]
  omega

lemma update_window_append (data : Reading) (st : List Reading) (last : Reading)
    (h : st.getLast? = some last) (hsw : same_window data last = false) :
    update_window data st =
      (data, if MAX_WINDOW_IN_STATE < st.length + 1 then (st ++ [data]).tail
             else st ++ [data]) := by
  simp only [update_window, h, hsw, if_false, Bool.false_eq_true]
  rw [List.length_append]
  rfl

lemma update_window_length_le (data : Reading) (st : List Reading)
    (h : st.length ≤ MAX_WINDOW_IN_STATE) :
    (update_window data st).2.length ≤ MAX_WINDOW_IN_STATE := by
  rcases hl : st.getLast? with _ | last
  · have : st = [] := by
      cases st with
      | nil => rfl
      | cons a l => simp [List.getLast?_concat] at hl
    subst this
    simp [update_window, MAX_WINDOW_IN_STATE]
  · rcases hsw : same_window data last with _ | _
    · rw [update_window_append data st last hl hsw]
      by_cases hc : MAX_WINDOW_IN_STATE < st.length + 1
      · simp only [hc, if_true]
        have : (st ++ [data]).length = st.length + 1 := by simp
        have ht : (st ++ [data]).tail.length = st.length := by
          simp [List.length_tail]
        omega
      · simp only [hc, if_false]
        simp only [List.length_append, List.length_singleton]
        omega
    · rw [update_window_replace data st last hl hsw h]
      have hne : st ≠ [] := ne_nil_of_getLast? hl
      have hpos : 0 < st.length := List.length_pos.mpr hne
      simp only [List.length_append, List.length_dropLast, List.length_singleton]
      omega

lemma processWindow_length_le (rs : List Reading) (st : List Reading)
    (h : st.length ≤ MAX_WINDOW_IN_STATE) :
    (processWindow rs st).length ≤ MAX_WINDOW_IN_STATE := by
  induction rs generalizing st with
  | nil => simpa [processWindow] using h
  | cons d rest ih =>
    simp only [processWindow, List.foldl_cons]
    exact ih _ (update_window_length_le d st h)

/-- C1: after any sequence of upserts the stored history has length at most
`MAX_WINDOW_IN_STATE = 168`; when an append pushes the length past 168,
exactly the oldest element (index 0) is removed; an in-place replacement
never triggers a removal. -/
theorem c1_window_bounded :
    (∀ rs : List Reading, (processWindow rs []).length ≤ MAX_WINDOW_IN_STATE) ∧
    (∀ (d : Reading) (st : List Reading) (last : Reading),
      st.getLast? = some last → same_window d last = false →
      MAX_WINDOW_IN_STATE < st.length + 1 →
      (update_window d st).2 = (st ++ [d]).tail) ∧
    (∀ (d : Reading) (st : List Reading) (last : Reading),
      st.getLast? = some last → same_window d last = true →
      st.length ≤ MAX_WINDOW_IN_STATE →
      (update_window d st).2 = st.dropLast ++ [d]) := by
  refine ⟨fun rs => processWindow_length_le rs [] (by simp), ?_, ?_⟩
  · intro d st last h hsw hlen
    rw [update_window_append d st last h hsw]
    simp [hlen]
  · intro d st last h hsw hlen
    rw [update_window_replace d st last h hsw hlen]

/-- C7: upserting a reading in the same window as the last stored element
returns the input reading unchanged, keeps the history length unchanged, and
performs an in-place replacement of the last element (no eviction). -/
theorem c7_replace_frame (d : Reading) (st : List Reading) (last : Reading)
    (h : st.getLast? = some last) (hsw : same_window d last = true)
    (hlen : st.length ≤ MAX_WINDOW_IN_STATE) :
    (update_window d st).1 = d ∧
    (update_window d st).2.length = st.length ∧
    (update_window d st).2 = st.dropLast ++ [d] := by
  have hrep := update_window_replace d st last h hsw hlen
  have hne : st ≠ [] := ne_nil_of_getLast? h
  have hpos : 0 < st.length := List.length_pos.mpr hne
  refine ⟨rfl, ?_, by rw [hrep]⟩
  rw [hrep]
  simp [List.length_dropLast]
  omega

theorem c1_window_bounded_witness :
    (processWindow [r100, r150, r200] []).length ≤ MAX_WINDOW_IN_STATE ∧
    (update_window r169 window168).2 = (window168 ++ [r169]).tail ∧
    (update_window r150 [r100]).2 = [r100].dropLast ++ [r150] := by
  refine ⟨c1_window_bounded.1 [r100, r150, r200], ?_, ?_⟩
  · exact c1_window_bounded.2.1 r169 window168
      { timestamp_ms := 168 * 3600000, region := "CAL", demand := some 168 }
      (by decide) (by decide) (by decide)
  · exact c1_window_bounded.2.2 r150 [r100] r100 (by decide) (by decide) (by decide)

theorem c7_replace_frame_witness :
    (update_window r150 [r100]).1 = r150 ∧
    (update_window r150 [r100]).2.length = [r100].length ∧
    (update_window r150 [r100]).2 = [r100].dropLast ++ [r150] :=
  c7_replace_frame r150 [r100] r100 (by decide) (by decide) (by decide)

lemma mem_of_getLast?_eq {l : List Reading} {a : Reading}
    (h : l.getLast? = some a) : a ∈ l := by
  have hne : l ≠ [] := ne_nil_of_getLast? h
  rw [List.getLast?_eq_getLast l hne] at h
  injection h with h
  rw [← h]
  exact List.getLast_mem hne

lemma update_window_inv (k : String) (d : Reading) (st : List Reading)
    (inv : WindowInv k st) (hd : d.region = k)
    (hge : ∀ l, st.getLast? = some l → l.timestamp_ms ≤ d.timestamp_ms) :
    WindowInv k (update_window d st).2 ∧ (update_window d st).2.getLast? = some d := by
  rcases hl : st.getLast? with _ | l
  · have hnil : st = [] := by
      cases st with
      | nil => rfl
      | cons a rest => simp [List.getLast?_concat] at hl
    subst hnil
    refine ⟨⟨?_, ?_, ?_⟩, ?_⟩ <;> simp [update_window, MAX_WINDOW_IN_STATE, hd]
  · have hne : st ≠ [] := ne_nil_of_getLast? hl
    have hlmem : l ∈ st := mem_of_getLast?_eq hl
    have hdecomp : st.dropLast ++ [l] = st := by
      have := List.dropLast_append_getLast hne
      rw [List.getLast?_eq_getLast st hne] at hl
      injection hl with hl
      rw [← hl]
      exact this
    rcases hsw : same_window d l with _ | _
    · -- append branch: the new timestamp is strictly larger
      have hts : l.timestamp_ms < d.timestamp_ms := by
        have hle := hge l hl
        rcases Nat.lt_or_ge l.timestamp_ms d.timestamp_ms with h | h
        · exact h
        · exfalso
          have heq : d.timestamp_ms = l.timestamp_ms := by omega
          have hreq : d.region = l.region := by rw [hd, inv.regions l hlmem]
          have : same_window d l = true := by
            simp [same_window, heq, hreq]
          rw [this] at hsw
          cases hsw
      have hchain : (st ++ [d]).Chain' (fun a b => a.timestamp_ms < b.timestamp_ms) := by
        rw [List.chain'_append]
        refine ⟨inv.chain, List.chain'_singleton d, ?_⟩
        intro x hx y hy
        simp only [List.head?_cons, Option.mem_def, Option.some.injEq] at hy
        rw [hl] at hx
        simp only [Option.mem_def, Option.some.injEq] at hx
        subst hx; subst hy
        exact hts
      have hregions : ∀ r ∈ st ++ [d], r.region = k := by
        intro r hr
        rcases List.mem_append.mp hr with h | h
        · exact inv.regions r h
        · simp only [List.mem_singleton] at h
          subst h; exact hd
      rw [update_window_append d st l hl hsw]
      by_cases hc : MAX_WINDOW_IN_STATE < st.length + 1
      · simp only [hc, if_true]
        rcases hst : st with _ | ⟨a, rest⟩
        · subst hst; simp at hl
        · subst hst
          have htail : ((a :: rest) ++ [d]).tail = rest ++ [d] := by simp
          rw [htail]
          refine ⟨⟨?_, ?_, ?_⟩, List.getLast?_concat rest⟩
          · have := hchain.tail
            simpa using this
          · intro r hr
            apply hregions
            rcases List.mem_append.mp hr with h | h
            · exact List.mem_append.mpr (Or.inl (List.mem_cons_of_mem a h))
            · exact List.mem_append.mpr (Or.inr h)
          · have hinv := inv.len_le
            simp only [List.length_cons] at hinv
            simp only [List.length_append, List.length_singleton]
            omega
      · simp only [hc, if_false]
        refine ⟨⟨hchain, hregions, ?_⟩, List.getLast?_concat st⟩
        simp only [List.length_append, List.length_singleton]
        omega
    · -- replace branch: same window as last element
      obtain ⟨hts, _⟩ := same_window_ts_region hsw
      rw [update_window_replace d st l hl hsw inv.len_le]
      have hchainst := inv.chain
      rw [← hdecomp] at hchainst
      rw [List.chain'_append] at hchainst
      obtain ⟨hc1, _, hc3⟩ := hchainst
      have hchain : (st.dropLast ++ [d]).Chain' (fun a b => a.timestamp_ms < b.timestamp_ms) := by
        rw [List.chain'_append]
        refine ⟨hc1, List.chain'_singleton d, ?_⟩
        intro x hx y hy
        simp only [List.head?_cons, Option.mem_def, Option.some.injEq] at hy
        subst hy
        have := hc3 x hx l (by simp)
        omega
      refine ⟨⟨hchain, ?_, ?_⟩, List.getLast?_concat st.dropLast⟩
      · intro r hr
        rcases List.mem_append.mp hr with h | h
        · exact inv.regions r (List.dropLast_subset st h)
        · simp only [List.mem_singleton] at h
          subst h; exact hd
      · have hpos : 0 < st.length := List.length_pos.mpr hne
        have hinv := inv.len_le
        simp only [List.length_append, List.length_dropLast, List.length_singleton]
        omega

lemma processWindow_inv (k : String) (rs : List Reading) (st : List Reading)
    (hch : rs.Chain' (fun a b => a.timestamp_ms ≤ b.timestamp_ms))
    (hreg : ∀ r ∈ rs, r.region = k)
    (inv : WindowInv k st)
    (hlink : ∀ l, st.getLast? = some l → ∀ e, rs.head? = some e →
      l.timestamp_ms ≤ e.timestamp_ms) :
    WindowInv k (processWindow rs st) := by
  induction rs generalizing st with
  | nil => exact inv
  | cons d rest ih =>
    have hd : d.region = k := hreg d (List.mem_cons_self d rest)
    have hge : ∀ l, st.getLast? = some l → l.timestamp_ms ≤ d.timestamp_ms :=
      fun l hl => hlink l hl d rfl
    obtain ⟨inv', hlast'⟩ := update_window_inv k d st inv hd hge
    simp only [processWindow, List.foldl_cons]
    refine ih ((update_window d st).2) ((List.chain'_cons'.mp hch).2)
      (fun r hr => hreg r (List.mem_cons_of_mem d hr)) inv' ?_
    intro l hl e he
    rw [hlast'] at hl
    injection hl with hl
    subst hl
    exact (List.chain'_cons'.mp hch).1 e (by simp [he])

/-- C6: if the readings for a key all carry that key's region and arrive in
non-decreasing timestamp order, the resulting history never contains two
elements with equal `(timestamp_ms, region)`; a reading in the same window as
the last stored element replaces it in place rather than being appended. -/
theorem c6_no_duplicate_window_keys :
    (∀ (k : String) (rs : List Reading),
      rs.Chain' (fun a b => a.timestamp_ms ≤ b.timestamp_ms) →
      (∀ r ∈ rs, r.region = k) →
      (processWindow rs []).Pairwise
        (fun a b => ¬(a.timestamp_ms = b.timestamp_ms ∧ a.region = b.region))) ∧
    (∀ (d : Reading) (st : List Reading) (last : Reading),
      st.getLast? = some last → same_window d last = true →
      st.length ≤ MAX_WINDOW_IN_STATE →
      (update_window d st).2 = st.dropLast ++ [d] ∧
      (update_window d st).2.length = st.length) := by
  constructor
  · intro k rs hch hreg
    have inv := processWindow_inv k rs [] hch hreg
      ⟨List.chain'_nil, by simp, by simp [MAX_WINDOW_IN_STATE]⟩ (by simp)
    haveI : IsTrans Reading (fun a b => a.timestamp_ms < b.timestamp_ms) :=
      ⟨fun _ _ _ h1 h2 => Nat.lt_trans h1 h2⟩
    have hp := (List.chain'_iff_pairwise).mp inv.chain
    exact hp.imp (fun h hc => by omega)
  · intro d st last h hsw hlen
    have hne : st ≠ [] := ne_nil_of_getLast? h
    have hpos : 0 < st.length := List.length_pos.mpr hne
    rw [update_window_replace d st last h hsw hlen]
    constructor
    · rfl
    · simp [List.length_dropLast]
      omega

theorem c6_no_duplicate_window_keys_witness :
    (processWindow [r100, r150, r200] []).Pairwise
      (fun a b => ¬(a.timestamp_ms = b.timestamp_ms ∧ a.region = b.region)) ∧
    (update_window r150 [r200, r100]).2 = [r200, r100].dropLast ++ [r150] ∧
    (update_window r150 [r200, r100]).2.length = [r200, r100].length := by
  refine ⟨c6_no_duplicate_window_keys.1 "CAL" [r100, r150, r200] ?_ ?_, ?_⟩
  · norm_num [List.chain'_cons, List.chain'_singleton, r100, r150, r200]
  · decide
  · exact c6_no_duplicate_window_keys.2 r150 [r200, r100] r100 (by decide) (by decide) (by decide)

lemma lagOr_eq_ok (D : List ℚ) (k : Nat) (fb : Option ℚ) (hk : 1 ≤ k) :
    lagOr D k fb = Except.ok (lagVal D k fb) := by
  unfold lagOr lagVal
  by_cases h : k ≤ D.length
  · simp only [h, if_true]
    have hlt : D.length - k < D.length := by omega
    rw [List.getElem?_eq_getElem hlt]
    simp [pyGet, List.getElem?_eq_getElem hlt, Except.map]
  · simp [h]

lemma compute_pos (data : Reading) (all_data : List Reading)
    (h : 0 < (demands all_data).length) :
    compute_rolling_values data all_data =
      Except.ok
        { reading := data
          stats :=
            { full_mean := some (mean (demands all_data))
              full_median := some (median (demands all_data))
              mean_3 := some (mean (if 3 ≤ (demands all_data).length
                then takeLast 3 (demands all_data) else demands all_data))
              median_3 := some (median (if 3 ≤ (demands all_data).length
                then takeLast 3 (demands all_data) else demands all_data))
              mean_24 := some (mean (if 24 ≤ (demands all_data).length
                then takeLast 24 (demands all_data) else demands all_data))
              median_24 := some (median (if 24 ≤ (demands all_data).length
                then takeLast 24 (demands all_data) else demands all_data))
              lag_1h := lagVal (demands all_data) 2 data.demand
              lag_24h := lagVal (demands all_data) 25 data.demand
              lag_168h := lagVal (demands all_data) 169 data.demand } } := by
  unfold compute_rolling_values
  simp only [h, if_true]
  rw [lagOr_eq_ok _ _ _ (by norm_num), lagOr_eq_ok _ _ _ (by norm_num),
    lagOr_eq_ok _ _ _ (by norm_num)]
  rfl

lemma compute_nil (data : Reading) (all_data : List Reading)
    (h : ¬ 0 < (demands all_data).length) :
    compute_rolling_values data all_data =
      Except.ok
        { reading := data
          stats :=
            { full_mean := data.demand
              full_median := data.demand
              mean_3 := data.demand
              median_3 := data.demand
              mean_24 := data.demand
              median_24 := data.demand
              lag_1h := data.demand
              lag_24h := data.demand
              lag_168h := data.demand } } := by
  unfold compute_rolling_values
  simp only [h, if_false]

lemma check_inactivity_zero :
    ∀ obs : List MonitorObs, (∀ o ∈ obs, o.last_message_time = 0) →
      (check_inactivity obs).2 = 0
  | [], _ => rfl
  | o :: rest, h => by
    have ha : o.last_message_time = 0 := h o (List.mem_cons_self o rest)
    have hf : inactivity_fires o = false := by
      simp [inactivity_fires, ha]
    simp only [check_inactivity, hf, Bool.false_eq_true, if_false]
    exact check_inactivity_zero rest (fun p hp => h p (List.mem_cons_of_mem o hp))

lemma check_inactivity_le_one : ∀ obs : List MonitorObs, (check_inactivity obs).2 ≤ 1
  | [] => Nat.zero_le 1
  | o :: rest => by
    rcases hf : inactivity_fires o with _ | _
    · simp only [check_inactivity, hf, Bool.false_eq_true, if_false]
      exact check_inactivity_le_one rest
    · simp [check_inactivity, hf]

lemma check_inactivity_first_fire :
    ∀ (pre : List MonitorObs) (o : MonitorObs) (post : List MonitorObs),
      (∀ p ∈ pre, inactivity_fires p = false) → inactivity_fires o = true →
      check_inactivity (pre ++ o :: post) = (pre ++ [o], 1)
  | [], o, _post, _, hf => by simp [check_inactivity, hf]
  | p :: pre, o, post, hpre, hf => by
    have hp : inactivity_fires p = false := hpre p (List.mem_cons_self p pre)
    simp only [List.cons_append, check_inactivity, hp, Bool.false_eq_true, if_false,
      List.append_eq]
    rw [check_inactivity_first_fire pre o post
      (fun q hq => hpre q (List.mem_cons_of_mem p hq)) hf]

/-- C9: as long as every check still observes the initial
`last_message_time = 0`, the monitor never issues a stop signal; over any
sequence of observations it issues at most one signal; and as soon as a check
observes a positive `last_message_time` with `now - last_message_time >
IDLE_TIMEOUT` (all earlier checks not firing), it stops exactly once and
performs no further checks. -/
theorem c9_liveness_monitor (obs : List MonitorObs) :
    ((∀ o ∈ obs, o.last_message_time = 0) → (check_inactivity obs).2 = 0) ∧
    (check_inactivity obs).2 ≤ 1 ∧
    (∀ pre o post, obs = pre ++ o :: post →
      (∀ p ∈ pre, inactivity_fires p = false) → inactivity_fires o = true →
      check_inactivity obs = (pre ++ [o], 1)) :=
  ⟨check_inactivity_zero obs, check_inactivity_le_one obs,
    fun pre o post heq hpre hf => by
      rw [heq]
      exact check_inactivity_first_fire pre o post hpre hf⟩

theorem c9_liveness_monitor_witness :
    (check_inactivity [obsIdle]).2 = 0 ∧
    (check_inactivity [obsIdle, obsExpired]).2 ≤ 1 ∧
    check_inactivity [obsIdle, obsExpired] = ([obsIdle, obsExpired], 1) :=
  ⟨(c9_liveness_monitor [obsIdle]).1
      (by intro o ho; simp only [List.mem_singleton] at ho; subst ho; rfl),
    (c9_liveness_monitor [obsIdle, obsExpired]).2.1,
    (c9_liveness_monitor [obsIdle, obsExpired]).2.2 [obsIdle] obsExpired [] rfl
      (by
        intro p hp
        simp only [List.mem_singleton] at hp
        subst hp
        norm_num [inactivity_fires, obsIdle])
      (by norm_num [inactivity_fires, obsExpired, IDLE_TIMEOUT])⟩

/-- C10: for every timestamp the emitted hour category agrees with the
spec's weekend/weekday case analysis and the numeric code mapping is
off_peak=0, office_hours=1, evening_peak=2; concretely, UTC Saturday
2023-01-07 19:00 yields evening_peak/2 and UTC Wednesday 2023-01-04 10:00
yields office_hours/1. -/
theorem c10_hour_category :
    (∀ ts_ms : Nat,
      hour_category ts_ms = specHourCategory (dayOfWeekOfTs ts_ms) (hourOfTs ts_ms) ∧
      category_mapping (hour_category ts_ms) = specCategoryCode (hour_category ts_ms)) ∧
    hour_category 1673118000000 = HourCategory.evening_peak ∧
    category_mapping (hour_category 1673118000000) = 2 ∧
    dayOfWeekOfTs 1673118000000 = 5 ∧
    hourOfTs 1673118000000 = 19 ∧
    hour_category 1672826400000 = HourCategory.office_hours ∧
    category_mapping (hour_category 1672826400000) = 1 ∧
    dayOfWeekOfTs 1672826400000 = 2 ∧
    hourOfTs 1672826400000 = 10 := by
  refine ⟨?_, by decide, by decide, by decide, by decide, by decide, by decide,
    by decide, by decide⟩
  intro ts
  constructor
  · have h7 : dayOfWeekOfTs ts < 7 := Nat.mod_lt _ (by norm_num)
    simp only [hour_category, specHourCategory]
    by_cases hw : 5 ≤ dayOfWeekOfTs ts
    · rw [if_pos hw, if_pos (show dayOfWeekOfTs ts = 5 ∨ dayOfWeekOfTs ts = 6 by omega)]
    · rw [if_neg hw, if_neg (show ¬(dayOfWeekOfTs ts = 5 ∨ dayOfWeekOfTs ts = 6) by omega)]
  · cases hour_category ts <;> rfl

lemma slice_eq_trailing (s : Nat) (D : List ℚ) :
    (if s ≤ D.length then takeLast s D else D) = trailing s D := by
  unfold takeLast trailing
  by_cases h : s ≤ D.length
  · simp only [h, if_true]
    rw [Nat.min_eq_right h]
  · simp only [h, if_false]
    have hle : D.length ≤ s := Nat.le_of_not_le h
    rw [Nat.min_eq_left hle]
    simp

lemma trailing_of_le (s : Nat) (D : List ℚ) (h : D.length ≤ s) : trailing s D = D := by
  unfold trailing
  rw [Nat.min_eq_left h]
  simp

lemma dropLast_append_of_getLast? {α : Type} {l : List α} {a : α}
    (h : l.getLast? = some a) : l.dropLast ++ [a] = l := by
  have hne : l ≠ [] := by intro e; subst e; simp at h
  rw [List.getLast?_eq_getLast l hne] at h
  injection h with h
  rw [← h]
  exact List.dropLast_append_getLast hne

lemma demands_pos_of_getLast (all_data : List Reading) (data : Reading) (c : ℚ)
    (hlast : all_data.getLast? = some data) (hc : data.demand = some c) :
    0 < (demands all_data).length := by
  have hd := dropLast_append_of_getLast? hlast
  have heq : demands all_data = demands all_data.dropLast ++ [c] := by
    conv_lhs => rw [← hd]
    unfold demands
    rw [List.filterMap_append]
    simp [hc]
  rw [heq]
  simp

/-- C2 (amended, demand_features part): re-processing a reading that is in
the same window as the last stored element yields the identical state and
identical enriched output both times. -/
theorem c2_df_idempotent (data : Reading) (st : List Reading) (last : Reading)
    (h : st.getLast? = some last) (hsw : same_window data last = true)
    (hlen : st.length ≤ MAX_WINDOW_IN_STATE) :
    pipeline_step data (pipeline_step data st).1 = pipeline_step data st := by
  have hne : st ≠ [] := ne_nil_of_getLast? h
  have hpos : 0 < st.length := List.length_pos.mpr hne
  have h1 := update_window_replace data st last h hsw hlen
  have e1 : pipeline_step data st =
      (st.dropLast ++ [data], compute_rolling_values data (st.dropLast ++ [data])) := by
    unfold pipeline_step
    rw [h1]
  have hlast1 : (st.dropLast ++ [data]).getLast? = some data := List.getLast?_concat _
  have hlen1 : (st.dropLast ++ [data]).length ≤ MAX_WINDOW_IN_STATE := by
    simp only [List.length_append, List.length_dropLast, List.length_singleton]
    omega
  have h2 := update_window_replace data (st.dropLast ++ [data]) data hlast1
    (same_window_self data) hlen1
  have e2 : pipeline_step data (st.dropLast ++ [data]) =
      ((st.dropLast ++ [data]).dropLast ++ [data],
        compute_rolling_values data ((st.dropLast ++ [data]).dropLast ++ [data])) := by
    unfold pipeline_step
    rw [h2]
  have e3 : (st.dropLast ++ [data]).dropLast ++ [data] = st.dropLast ++ [data] :=
    by rw [List.dropLast_concat]
  rw [e1]
  show pipeline_step data (st.dropLast ++ [data]) =
    (st.dropLast ++ [data], compute_rolling_values data (st.dropLast ++ [data]))
  rw [e2, e3]

theorem c2_df_idempotent_witness :
    pipeline_step r150 (pipeline_step r150 [r100]).1 = pipeline_step r150 [r100] :=
  c2_df_idempotent r150 [r100] r100 (by decide) (by decide) (by decide)

/-- C2 counterexample (feature_demand part): re-processing the identical
latest reading grows the variant's `demand_history` state from `[100]` to
`[100, 100]` and changes the emitted `lag_1h` from `None` to `100.0`, so
neither the per-key state nor the output is identical. -/
theorem c2_fd_counterexample :
    (FeatureDemand.pipelineStep r100
      ((FeatureDemand.pipelineStep r100 (([], []) : List Reading × List ℚ)).1)).1.2 =
      [100, 100] ∧
    (FeatureDemand.pipelineStep r100 (([], []) : List Reading × List ℚ)).1.2 = [100] ∧
    Except.map (fun e => e.stats.lag_1h)
      (FeatureDemand.pipelineStep r100
        ((FeatureDemand.pipelineStep r100 (([], []) : List Reading × List ℚ)).1)).2 =
      Except.ok (some 100) ∧
    Except.map (fun e => e.stats.lag_1h)
      (FeatureDemand.pipelineStep r100 (([], []) : List Reading × List ℚ)).2 =
      Except.ok none ∧
    ([100, 100] : List ℚ) ≠ [100] ∧
    (some (100 : ℚ)) ≠ none :=
  ⟨rfl, rfl, rfl, rfl, by decide, by decide⟩

/-- C3 (amended, demand_features part): with a bounded history and at least
one non-null demand value, each emitted rolling mean/median is computed over
exactly the last `min(n, span)` elements of the non-null demand sequence,
where the full-window fields serve as the span-168 statistics. -/
theorem c3_df_rolling_windows (data : Reading) (all_data : List Reading)
    (hlen : all_data.length ≤ MAX_WINDOW_IN_STATE)
    (hpos : 0 < (demands all_data).length) :
    Except.map (fun e => e.stats.mean_3) (compute_rolling_values data all_data) =
      Except.ok (some (mean (trailing 3 (demands all_data)))) ∧
    Except.map (fun e => e.stats.median_3) (compute_rolling_values data all_data) =
      Except.ok (some (median (trailing 3 (demands all_data)))) ∧
    Except.map (fun e => e.stats.mean_24) (compute_rolling_values data all_data) =
      Except.ok (some (mean (trailing 24 (demands all_data)))) ∧
    Except.map (fun e => e.stats.median_24) (compute_rolling_values data all_data) =
      Except.ok (some (median (trailing 24 (demands all_data)))) ∧
    Except.map (fun e => e.stats.full_mean) (compute_rolling_values data all_data) =
      Except.ok (some (mean (trailing 168 (demands all_data)))) ∧
    Except.map (fun e => e.stats.full_median) (compute_rolling_values data all_data) =
      Except.ok (some (median (trailing 168 (demands all_data)))) := by
  have hD : (demands all_data).length ≤ 168 :=
    le_trans (List.length_filterMap_le _ _) hlen
  have h168 : trailing 168 (demands all_data) = demands all_data :=
    trailing_of_le 168 _ hD
  rw [compute_pos data all_data hpos]
  refine ⟨?_, ?_, ?_, ?_, ?_, ?_⟩ <;>
    simp [Except.map, slice_eq_trailing, h168]

theorem c3_df_rolling_windows_witness :
    Except.map (fun e => e.stats.mean_3) (compute_rolling_values r100 [r100]) =
      Except.ok (some (mean (trailing 3 (demands [r100])))) ∧
    Except.map (fun e => e.stats.median_3) (compute_rolling_values r100 [r100]) =
      Except.ok (some (median (trailing 3 (demands [r100])))) ∧
    Except.map (fun e => e.stats.mean_24) (compute_rolling_values r100 [r100]) =
      Except.ok (some (mean (trailing 24 (demands [r100])))) ∧
    Except.map (fun e => e.stats.median_24) (compute_rolling_values r100 [r100]) =
      Except.ok (some (median (trailing 24 (demands [r100])))) ∧
    Except.map (fun e => e.stats.full_mean) (compute_rolling_values r100 [r100]) =
      Except.ok (some (mean (trailing 168 (demands [r100])))) ∧
    Except.map (fun e => e.stats.full_median) (compute_rolling_values r100 [r100]) =
      Except.ok (some (median (trailing 168 (demands [r100])))) :=
  c3_df_rolling_windows r100 [r100] (by decide) (by decide)

/-- C3 counterexample (feature_demand part): after a single reading the
non-null demand sequence has length 1 > 0, yet the variant emits
`mean_3 = None` instead of the mean of the last `min(1, 3) = 1` elements. -/
theorem c3_fd_counterexample :
    (FeatureDemand.pipelineStep r100 (([], []) : List Reading × List ℚ)).1.2 = [100] ∧
    Except.map (fun e => e.stats.mean_3)
      (FeatureDemand.pipelineStep r100 (([], []) : List Reading × List ℚ)).2 =
      Except.ok none ∧
    (none : Option ℚ) ≠ some (mean (trailing 3 [100])) :=
  ⟨rfl, rfl, by decide⟩

/-- C4 (amended, demand_features part): when the history's last element is
the current reading with non-null demand `c`, the emitted lags are
`D[n-2]`, `D[n-25]`, `D[n-169]` when `n` reaches 2, 25, 169 respectively,
and the non-null current demand `c` otherwise. -/
theorem c4_df_lag_features (data : Reading) (all_data : List Reading) (c : ℚ)
    (hc : data.demand = some c) (hlast : all_data.getLast? = some data) :
    0 < (demands all_data).length ∧
    Except.map (fun e => e.stats.lag_1h) (compute_rolling_values data all_data) =
      Except.ok (if 2 ≤ (demands all_data).length
        then (demands all_data)[(demands all_data).length - 2]? else some c) ∧
    Except.map (fun e => e.stats.lag_24h) (compute_rolling_values data all_data) =
      Except.ok (if 25 ≤ (demands all_data).length
        then (demands all_data)[(demands all_data).length - 25]? else some c) ∧
    Except.map (fun e => e.stats.lag_168h) (compute_rolling_values data all_data) =
      Except.ok (if 169 ≤ (demands all_data).length
        then (demands all_data)[(demands all_data).length - 169]? else some c) := by
  have hpos := demands_pos_of_getLast all_data data c hlast hc
  refine ⟨hpos, ?_, ?_, ?_⟩ <;>
  · rw [compute_pos data all_data hpos]
    simp [Except.map, lagVal, hc]

theorem c4_df_lag_features_witness :
    0 < (demands [r100]).length ∧
    Except.map (fun e => e.stats.lag_1h) (compute_rolling_values r100 [r100]) =
      Except.ok (if 2 ≤ (demands [r100]).length
        then (demands [r100])[(demands [r100]).length - 2]? else some 100) ∧
    Except.map (fun e => e.stats.lag_24h) (compute_rolling_values r100 [r100]) =
      Except.ok (if 25 ≤ (demands [r100]).length
        then (demands [r100])[(demands [r100]).length - 25]? else some 100) ∧
    Except.map (fun e => e.stats.lag_168h) (compute_rolling_values r100 [r100]) =
      Except.ok (if 169 ≤ (demands [r100]).length
        then (demands [r100])[(demands [r100]).length - 169]? else some 100) :=
  c4_df_lag_features r100 [r100] 100 rfl rfl

/-- C4 counterexample (feature_demand part): after a single reading with
demand 100, the insufficient-history lag is emitted as `None`, not as the
current reading's own demand value. -/
theorem c4_fd_counterexample :
    Except.map (fun e => e.stats.lag_1h)
      (FeatureDemand.pipelineStep r100 (([], []) : List Reading × List ℚ)).2 =
      Except.ok none ∧
    (none : Option ℚ) ≠ some 100 :=
  ⟨rfl, by decide⟩

/-- C5 (amended, demand_features part): after 169 sequential distinct hourly
readings with demands 1..169, the history has length 168, its oldest element
is the reading with demand 2, and the `lag_168h` emitted with the 169th
reading is the fallback (its own demand 169), not the evicted demand 1. -/
theorem c5_df_eviction_scenario :
    (run_pipeline scenarioReadings).1.length = 168 ∧
    (run_pipeline scenarioReadings).1.head? =
      some { timestamp_ms := 2 * 3600000, region := "CAL", demand := some (mkRat 2 1) } ∧
    Except.map (fun e => e.stats.lag_168h) (run_pipeline scenarioReadings).2 =
      Except.ok (some (mkRat 169 1)) :=
  ⟨by decide, by decide, rfl⟩

/-- C5 counterexample (feature_demand part): the variant's separate
`demand_history` is never evicted (it reaches length 169), and the
`lag_168h` emitted with the 169th reading is the evicted demand value 1,
not the fallback 169. -/
theorem c5_fd_counterexample :
    (FeatureDemand.runAll scenarioReadings).1.2.length = 169 ∧
    Except.map (fun e => e.stats.lag_168h) (FeatureDemand.runAll scenarioReadings).2 =
      Except.ok (some (mkRat 1 1)) ∧
    some (mkRat 1 1) ≠ some (mkRat 169 1) :=
  ⟨by decide, rfl, by decide⟩

/-- C8: the demand_features rolling computation never raises: for every
reading and every prior state it returns a complete enriched record; the
feature_demand variant, however, raises `UnboundLocalError` whenever the
current reading's demand is null (its `values` local is only assigned in
the non-null branch). -/
theorem c8_never_raises_and_fd_crash :
    (∀ (data : Reading) (all_data : List Reading),
      ∃ v, compute_rolling_values data all_data = Except.ok v) ∧
    (FeatureDemand.compute_rolling_values
        { timestamp_ms := 3600000, region := "CAL", demand := none } []).2 =
      Except.error "UnboundLocalError: values" := by
  constructor
  · intro data all_data
    by_cases h : 0 < (demands all_data).length
    · exact ⟨_, compute_pos data all_data h⟩
    · exact ⟨_, compute_nil data all_data h⟩
  · rfl
